import Mathlib

/-!
Verification of the AI-Chat-Exporter content-isolation and classification
engine (src/converter.py) against its natural-language specification.

The Python module is shallowly embedded: the DOM (BeautifulSoup tree) is a
rose tree of element and text nodes, each carrying a numeric identity
(modelling Python object identity, used only where the source relies on
it); the regular expressions of the source are embedded as explicit
pattern-item sequences with exhaustive-remainder matching (a regex matches
iff some decomposition of the text fits the items, which coincides with
re.search boolean semantics); `re.sub` calls whose replacement extent
matters are embedded with the greedy maximal-munch extent the Python
engine computes for these particular patterns.  File input is abstracted
to a three-way descriptor (missing file / undecodable bytes / parsed
document) and the external HTML-to-Markdown renderer (markdownify) is a
function parameter, as the specification treats it as an external
collaborator.
-/

-- ──────────────────────────────────────────────
--  Character and string helpers
-- ──────────────────────────────────────────────

/-- Python `\s` / `str.strip()` whitespace (ASCII range, as produced by the
HTML sources the tool handles). -/
def wsChar (c : Char) : Bool :=
  c = ' ' || c = '\t' || c = '\n' || c = '\x0d' || c = '\x0b' || c = '\x0c'

/-- Python `\w` word characters (ASCII range). -/
def wordChar (c : Char) : Bool :=
  c.isAlphanum || c = '_'

/-- Lowercase a string character-wise (Python `str.lower()` on the ASCII
range). -/
def strLower (s : String) : String :=
  String.mk (s.toList.map Char.toLower)

/-- `pat in hay` of Python: substring containment. -/
def containsSub (hay pat : String) : Bool :=
  decide (pat.toList <:+: hay.toList)

/-- Does the character list `cs` start with the literal `pat`? -/
def startsWithL : List Char → List Char → Bool
  | [], _ => true
  | _ :: _, [] => false
  | p :: ps, c :: cs => p = c && startsWithL ps cs

/-- Python `str.strip()` (whitespace from both ends). -/
def pyStrip (s : String) : String :=
  String.mk (((s.toList.dropWhile wsChar).reverse.dropWhile wsChar).reverse)

/-- Python `str.strip(chars)` with an explicit character set. -/
def pyStripSet (set : List Char) (s : String) : String :=
  String.mk (((s.toList.dropWhile (· ∈ set)).reverse.dropWhile (· ∈ set)).reverse)

/-- Python `s[-n:]`: the last `n` characters. -/
def lastN (n : Nat) (s : String) : String :=
  String.mk (s.toList.drop (s.toList.length - n))

/-- Python `str.split()` word count (maximal non-whitespace runs). -/
def wordCount (s : String) : Nat :=
  ((s.toList.splitOnP wsChar).filter (· ≠ [])).length

-- ──────────────────────────────────────────────
--  Embedded regular expressions
-- ──────────────────────────────────────────────

/-- One item of an embedded regular expression.  `lit` is a literal
character run, `one`/`optC` a mandatory/optional single character from a
predicate, `star`/`plus` a Kleene run of predicate characters, and
`thru c` is `.*?c` under DOTALL (any characters, then the character `c`).
Case-insensitive patterns are applied to a lowercased copy of the text. -/
inductive PatItem where
  | lit (cs : List Char)
  | one (p : Char → Bool)
  | optC (p : Char → Bool)
  | star (p : Char → Bool)
  | plus (p : Char → Bool)
  | thru (c : Char)

/-- All remainders after consuming zero or more leading `p`-characters. -/
def runRems (p : Char → Bool) : List Char → List (List Char)
  | [] => [[]]
  | c :: cs => (c :: cs) :: (if p c then runRems p cs else [])

/-- All remainders after consuming any characters up to and including an
occurrence of `c`. -/
def thruRems (c : Char) : List Char → List (List Char)
  | [] => []
  | a :: cs => (if a = c then [cs] else []) ++ thruRems c cs

/-- The possible remainders after one pattern item consumes a prefix of
`cs`. -/
def itemRems : PatItem → List Char → List (List Char)
  | .lit l, cs => if startsWithL l cs then [cs.drop l.length] else []
  | .one p, cs => match cs with
    | [] => []
    | c :: rest => if p c then [rest] else []
  | .optC p, cs => cs :: (match cs with
    | [] => []
    | c :: rest => if p c then [rest] else [])
  | .star p, cs => runRems p cs
  | .plus p, cs => match cs with
    | [] => []
    | c :: rest => if p c then runRems p rest else []
  | .thru c, cs => thruRems c cs

/-- All remainders after a full item sequence consumes a prefix of `cs`. -/
def seqRems (items : List PatItem) (cs : List Char) : List (List Char) :=
  items.foldl (fun rems it => rems.flatMap (itemRems it)) [cs]

/-- `re.search` boolean semantics for an alternation of item sequences:
some alternative matches starting at some position. -/
def searchIn (alts : List (List PatItem)) (cs : List Char) : Bool :=
  cs.tails.any (fun suf => alts.any (fun a => (seqRems a suf) ≠ []))

/-- `re.fullmatch` semantics for one item sequence. -/
def fullMatch (items : List PatItem) (cs : List Char) : Bool :=
  (seqRems items cs).any (· = [])

-- ──────────────────────────────────────────────
--  DOM model
-- ──────────────────────────────────────────────

/-- A BeautifulSoup node: an element (tag, attributes, children) or a
navigable string.  The `id` field models Python object identity; the
source uses identity in `_simplify_user_messages` deduplication and when
decomposing the parents of collected text nodes. -/
inductive Node where
  | elem (id : Nat) (tag : String) (attrs : List (String × String)) (children : List Node)
  | text (id : Nat) (s : String)

/-- Simultaneous induction over a node and over lists of nodes, packaging
the nested recursor of `Node`. -/
theorem nodeRec (P : Node → Prop) (Q : List Node → Prop)
    (he : ∀ i t a cs, Q cs → P (.elem i t a cs))
    (ht : ∀ i s, P (.text i s))
    (hn : Q [])
    (hc : ∀ c cs, P c → Q cs → Q (c :: cs)) :
    ∀ n, P n :=
  fun n => Node.rec he ht hn hc n

mutual

/-- Structural equality of nodes. -/
def beqNode : Node → Node → Bool
  | .text i s, .text j u => i = j && s = u
  | .elem i t a cs, .elem j u b ds => i = j && t = u && decide (a = b) && beqNodeL cs ds
  | _, _ => false

def beqNodeL : List Node → List Node → Bool
  | [], [] => true
  | c :: cs, d :: ds => beqNode c d && beqNodeL cs ds
  | _, _ => false

end

theorem beqNode_iff : ∀ a b : Node, beqNode a b = true ↔ a = b := by
  have main : ∀ a : Node, (∀ b, beqNode a b = true ↔ a = b) := by
    apply nodeRec (fun a => ∀ b, beqNode a b = true ↔ a = b)
      (fun l => ∀ m, beqNodeL l m = true ↔ l = m)
    · intro i t a cs ih b
      cases b with
      | text j u => simp [beqNode]
      | elem j u d ds =>
          simp [beqNode, ih ds, Node.elem.injEq]
          tauto
    · intro i s b
      cases b with
      | text j u => simp [beqNode]
      | elem j u d ds => simp [beqNode]
    · intro m
      cases m with
      | nil => simp [beqNodeL]
      | cons d ds => simp [beqNodeL]
    · intro c cs ihc ihl m
      cases m with
      | nil => simp [beqNodeL]
      | cons d ds => simp [beqNodeL, ihc d, ihl ds]
  exact main

instance : DecidableEq Node := fun a b =>
  decidable_of_iff (beqNode a b = true) (beqNode_iff a b)

/-- Identity of a node. -/
def nodeId : Node → Nat
  | .elem i _ _ _ => i
  | .text i _ => i

/-- The attribute value for a key, if present (`Tag.get` / `Tag[...]`). -/
def getAttr (attrs : List (String × String)) (k : String) : Option String :=
  (attrs.find? (fun p => p.1 = k)).map Prod.snd

/-- The class attribute parsed the way the html.parser tree builder stores
it: split on whitespace into individual class strings. -/
def classListOf (attrs : List (String × String)) : List String :=
  match getAttr attrs "class" with
  | none => []
  | some v => ((v.toList.splitOnP wsChar).filter (· ≠ [])).map String.mk

mutual

/-- All navigable strings of a subtree with their identities, in document
order (`Tag.strings`). -/
def textNodes : Node → List (Nat × String)
  | .text i s => [(i, s)]
  | .elem _ _ _ cs => textNodesL cs

def textNodesL : List Node → List (Nat × String)
  | [] => []
  | c :: cs => textNodes c ++ textNodesL cs

end

/-- `get_text()`: concatenation of all navigable strings. -/
def getText (n : Node) : String :=
  String.join ((textNodes n).map Prod.snd)

/-- `get_text(strip=True)`: concatenation of the individually stripped
navigable strings, empty fragments skipped. -/
def getTextStrip (n : Node) : String :=
  String.join ((((textNodes n).map Prod.snd).map pyStrip).filter (· ≠ ""))

mutual

/-- Every node of a subtree paired with its path (child-index sequence)
from the root, in document (pre)order.  This is the order in which
`find`/`find_all` visit candidates and the order underlying
`next_elements` and `previous_elements`. -/
def preorderPaths : Node → List (List Nat × Node)
  | .text i s => [([], .text i s)]
  | .elem i t a cs => ([], .elem i t a cs) :: preorderPathsL 0 cs

def preorderPathsL : Nat → List Node → List (List Nat × Node)
  | _, [] => []
  | k, c :: cs =>
      (preorderPaths c).map (fun pn => (k :: pn.1, pn.2)) ++ preorderPathsL (k + 1) cs

end

/-- The node at a path, if any. -/
def getAt : Node → List Nat → Option Node
  | n, [] => some n
  | .text _ _, _ :: _ => none
  | .elem _ _ _ cs, k :: p =>
      match cs.get? k with
      | none => none
      | some c => getAt c p

mutual

/-- Remove from a subtree every node (at any depth) satisfying `p`, the
root excluded — the semantics of collecting `find_all` matches on a soup
and decomposing each of them. -/
def removeAll (p : Node → Bool) : Node → Node
  | .text i s => .text i s
  | .elem i t a cs => .elem i t a (removeAllL p cs)

def removeAllL (p : Node → Bool) : List Node → List Node
  | [] => []
  | c :: cs => if p c then removeAllL p cs else removeAll p c :: removeAllL p cs

end

/-- Lift a predicate on tag name and attributes to nodes; text nodes never
match.  All `find_all` criteria used by the converter other than the
brand-text rule are of this shape. -/
def localPred (f : String → List (String × String) → Bool) : Node → Bool
  | .text _ _ => false
  | .elem _ t a _ => f t a

mutual

/-- Apply `f` to the (unique) subtree whose root has identity `i`, if it
is still present in the tree. -/
def mapAtId (i : Nat) (f : Node → Node) : Node → Node
  | .text j s => .text j s
  | .elem j t a cs =>
      if j = i then f (.elem j t a cs) else .elem j t a (mapAtIdL i f cs)

def mapAtIdL (i : Nat) (f : Node → Node) : List Node → List Node
  | [] => []
  | c :: cs => mapAtId i f c :: mapAtIdL i f cs

end

mutual

/-- The element whose direct children include the text node with identity
`tid` (the `.parent` of that navigable string), if the text node is
present. -/
def parentOfTextId (tid : Nat) : Node → Option Node
  | .text _ _ => none
  | .elem i t a cs =>
      if cs.any (fun c => match c with | .text j _ => j = tid | _ => false) then
        some (.elem i t a cs)
      else parentOfTextIdL tid cs

def parentOfTextIdL (tid : Nat) : List Node → Option Node
  | [] => none
  | c :: cs =>
      match parentOfTextId tid c with
      | some p => some p
      | none => parentOfTextIdL tid cs

end

-- ──────────────────────────────────────────────
--  Static tables (converter.py module constants)
-- ──────────────────────────────────────────────

/-- `_PLATFORM_NAMES`. -/
def platformNames : List String :=
  ["Google Gemini", "Gemini", "ChatGPT", "GPT-4o", "GPT-4",
   "Claude", "Copilot", "Perplexity", "DeepSeek"]

/-- `_LABEL_MAP`, in dict insertion order (Python dicts preserve it and the
proximity search iterates it in that order). -/
def labelMap : List (String × String) :=
  [("c++", "cpp"), ("cpp", "cpp"), ("c plus plus", "cpp"),
   ("python", "python"), ("py ", "python"),
   ("javascript", "javascript"), ("js ", "javascript"), ("js code", "javascript"),
   ("typescript", "typescript"), ("ts ", "typescript"),
   ("java", "java"),
   ("rust", "rust"),
   ("go ", "go"), ("golang", "go"),
   ("ruby", "ruby"),
   ("sql", "sql"),
   ("bash", "bash"), ("shell", "bash"), ("terminal", "bash"),
   ("html", "html"),
   ("css", "css"),
   ("c#", "csharp"), ("csharp", "csharp"),
   ("kotlin", "kotlin"),
   ("swift", "swift"),
   ("r ", "r"), ("r code", "r"),
   ("php", "php"),
   ("dart", "dart")]

/-- `_CODE_BLOCK_TAG_MAP`, in dict insertion order. -/
def codeBlockTagMap : List (String × String) :=
  [("```python", "python"), ("```py", "python"),
   ("```cpp", "cpp"), ("```c++", "cpp"),
   ("```javascript", "javascript"), ("```js", "javascript"),
   ("```typescript", "typescript"), ("```ts", "typescript"),
   ("```java", "java"),
   ("```rust", "rust"), ("```rs", "rust"),
   ("```go", "go"),
   ("```ruby", "ruby"), ("```rb", "ruby"),
   ("```sql", "sql"),
   ("```bash", "bash"), ("```sh", "bash"),
   ("```html", "html"),
   ("```css", "css"),
   ("```csharp", "csharp"), ("```c#", "csharp"),
   ("```kotlin", "kotlin"), ("```kt", "kotlin"),
   ("```swift", "swift"),
   ("```r", "r"),
   ("```php", "php"),
   ("```dart", "dart")]

-- ──────────────────────────────────────────────
--  Code Language Classifier (get_code_language)
-- ──────────────────────────────────────────────

/-- Everything after the first dash: `cls.split("-", 1)[1]` for a class
that contains a dash. -/
def afterFirstDash (s : String) : String :=
  String.mk ((s.toList.dropWhile (· ≠ '-')).drop 1)

/-- Stage 1, HTML class inspection: first class of the element or of its
immediate parent starting with a recognized language-marker string; the
result is the part after the first separator. -/
def classStage (root : Node) (path : List Nat) : Option String :=
  match getAt root path with
  | none => none
  | some el =>
    let elCls := match el with
      | .elem _ _ a _ => classListOf a
      | .text _ _ => []
    let parentCls := if path = [] then [] else
      match getAt root path.dropLast with
      | some (.elem _ _ a _) => classListOf a
      | _ => []
    ((elCls ++ parentCls).find? (fun c =>
        startsWithL "language-".toList c.toList || startsWithL "lang-".toList c.toList)).map
      afterFirstDash

/-- The inner loop of the proximity stage over `_LABEL_MAP`: first alias
contained in the text wins, except that the literal token `java` is
skipped when the same text also contains `script`. -/
def scanLabels : List (String × String) → String → Option String
  | [], _ => none
  | (label, lang) :: rest, t =>
      if containsSub t label then
        if label = "java" && containsSub t "script" then scanLabels rest t
        else some lang
      else scanLabels rest t

/-- Stage 2, proximity search: up to 4 preceding block-level elements of
the element's parent, in reverse document order; each text is stripped,
lowercased, truncated to its trailing 60 characters when longer than 120,
and scanned against the alias table. -/
def proximityStage (root : Node) (parentPath : List Nat) : Option String :=
  let pre := preorderPaths root
  let idx := pre.findIdx (fun pn => pn.1 == parentPath)
  let blocks := ((pre.take idx).reverse.filterMap (fun pn =>
      match pn.2 with
      | .elem i t a cs =>
          if t ∈ ["p", "div", "h3", "h4", "h5", "li", "span"] then
            some (Node.elem i t a cs)
          else none
      | .text _ _ => none)).take 4
  blocks.findSome? (fun b =>
    let t0 := strLower (getTextStrip b)
    let t := if t0.length > 120 then lastN 60 t0 else t0
    scanLabels labelMap t)

/-- Search a text for a position satisfying `step`, which also receives
the previous character (for word-boundary tests). -/
def searchFrom (step : Option Char → List Char → Bool) : Option Char → List Char → Bool
  | prev, cs =>
      step prev cs ||
        match cs with
        | [] => false
        | c :: rest => searchFrom step (some c) rest

/-- A `\b` word boundary holds before the current position. -/
def boundaryOk : Option Char → Bool
  | none => true
  | some c => !wordChar c

/-- A `\b` word boundary holds after the consumed token. -/
def boundaryNext : List Char → Bool
  | [] => true
  | c :: _ => !wordChar c

/-- The regex `\b(int|void|double|float|bool|char)\s+\w+\s*\(.*?\)\s*\{`
under DOTALL search semantics. -/
def cFuncSearch (s : String) : Bool :=
  searchFrom (fun prev cs =>
    boundaryOk prev &&
      ["int", "void", "double", "float", "bool", "char"].any (fun kw =>
        startsWithL kw.toList cs &&
          seqRems [.plus wsChar, .plus wordChar, .star wsChar, .lit ['('],
                   .thru ')', .star wsChar, .lit ['\x7b']]
            (cs.drop kw.length) ≠ []))
    none s.toList

/-- The regex `\bSELECT\b.*\bFROM\b` with IGNORECASE and DOTALL. -/
def sqlSearch (s : String) : Bool :=
  searchFrom (fun prev cs =>
    boundaryOk prev && startsWithL "select".toList cs &&
      (boundaryNext (cs.drop 6) &&
        searchFrom (fun p2 c2 =>
            boundaryOk p2 && startsWithL "from".toList c2 &&
              boundaryNext (c2.drop 4))
          (some 't') (cs.drop 6)))
    none (strLower s).toList

/-- The regex `<\/?[a-z]+[^>]*>` with IGNORECASE. -/
def htmlTagSearch (s : String) : Bool :=
  searchIn [[.lit ['<'], .optC (· = '/'),
             .plus (fun c => 'a' ≤ c && c ≤ 'z'),
             .star (· ≠ '>'), .lit ['>']]]
    (strLower s).toList

/-- Stage 3, syntax analysis of the raw code text: the fixed-priority
signature chain of `get_code_language`, empty when nothing matches. -/
def codeTextStage (code : String) : String :=
  if containsSub code "#include" || containsSub code "std::" then "cpp"
  else if containsSub code "cout" && containsSub code "<<" then "cpp"
  else if cFuncSearch code then "cpp"
  else if containsSub code "def " && containsSub code ":" then "python"
  else if containsSub code "import " && containsSub code "from " then "python"
  else if containsSub code "fn " && containsSub code "let " && containsSub code "->" then "rust"
  else if containsSub code "func " && containsSub code "fmt." then "go"
  else if containsSub code "interface " && containsSub code ":" && containsSub code "export " then
    "typescript"
  else if containsSub code "console.log" || containsSub code "document." then "javascript"
  else if sqlSearch code then "sql"
  else if htmlTagSearch code then "html"
  else ""

/-- `get_code_language` on the element at `path` inside `root`.  The
result is `Except`: `.error` models a raised Python exception; stage 2
dereferences `el.parent` without the guard stage 1 has, so a parentless
element that reaches stage 2 raises `AttributeError`. -/
def getCodeLanguage (root : Node) (path : List Nat) : Except String String :=
  match getAt root path with
  | none => .error "no element at path"
  | some el =>
    match classStage root path with
    | some c => .ok c
    | none =>
      if path = [] then
        .error "AttributeError: NoneType object has no attribute find_all_previous"
      else
        match proximityStage root path.dropLast with
        | some l => .ok l
        | none => .ok (codeTextStage (getText el))

-- ──────────────────────────────────────────────
--  Tag generator (_auto_detect_tags)
-- ──────────────────────────────────────────────

/-- Python `set.add`: the underlying set of tags is modelled as a
duplicate-free list; adding an already-present value is a no-op. -/
def setAdd (x : String) (s : List String) : List String :=
  if x ∈ s then s else x :: s

/-- `set.add` guarded by a condition. -/
def addIf (b : Bool) (x : String) (s : List String) : List String :=
  if b then setAdd x s else s

/-- The code-block-marker scan of `_auto_detect_tags`: start from the base
tag and add the canonical tag of every marker contained in the lowercased
content. -/
def tagSetBase (lower : String) : List String :=
  codeBlockTagMap.foldl (fun s ml => if containsSub lower ml.1 then setAdd ml.2 s else s)
    ["ai-chat"]

/-- The tag set built by `_auto_detect_tags` before sorting: marker scan,
then the six syntax heuristics in source order (the `go` heuristic
consults the tags accumulated so far, mirroring `"go" not in tags`). -/
def tagSet (content : String) : List String :=
  let lower := strLower content
  let t1 := tagSetBase lower
  let t2 := addIf (containsSub lower "def " && containsSub lower ":") "python" t1
  let t3 := addIf (containsSub lower "#include" || containsSub lower "std::") "cpp" t2
  let t4 := addIf (containsSub lower "console.log") "javascript" t3
  let t5 := addIf (containsSub lower "fmt.println" ||
      (containsSub lower "func " && !(decide ("go" ∈ t4)))) "go" t4
  let t6 := addIf (containsSub lower "fn " && containsSub lower "let mut") "rust" t5
  addIf (containsSub lower "public static void main") "java" t6

/-- Lexicographic comparison of character lists by code point — the order
Python `sorted` uses on strings. -/
def lexLe : List Char → List Char → Bool
  | [], _ => true
  | _ :: _, [] => false
  | a :: as, b :: bs =>
      if a.toNat < b.toNat then true
      else if b.toNat < a.toNat then false
      else lexLe as bs

/-- Python string comparison. -/
def strLe (a b : String) : Bool :=
  lexLe a.toList b.toList

theorem lexLe_trans : ∀ a b c : List Char, lexLe a b → lexLe b c → lexLe a c := by
  intro a
  induction a with
  | nil => intro b c _ _; exact rfl
  | cons x xs ih =>
      intro b c hab hbc
      cases b with
      | nil => simp [lexLe] at hab
      | cons y ys =>
          cases c with
          | nil => simp [lexLe] at hbc
          | cons z zs =>
              simp only [lexLe] at hab hbc ⊢
              by_cases h1 : x.toNat < y.toNat <;> by_cases h2 : y.toNat < z.toNat <;>
                by_cases h3 : x.toNat < z.toNat <;>
                simp_all [lexLe] <;> try omega
              · exact Or.inr ⟨by omega, ih ys zs hab.2 hbc.2⟩

theorem lexLe_total : ∀ a b : List Char, lexLe a b || lexLe b a := by
  intro a
  induction a with
  | nil => intro b; simp [lexLe]
  | cons x xs ih =>
      intro b
      cases b with
      | nil => simp [lexLe]
      | cons y ys =>
          simp only [lexLe]
          by_cases h1 : x.toNat < y.toNat <;> by_cases h2 : y.toNat < x.toNat <;>
            simp_all [lexLe]
          have := ih ys
          tauto

/-- The string order as a decidable relation, for sorting. -/
def strOrd : String → String → Prop := fun a b => strLe a b = true

instance : DecidableRel strOrd := fun a b => instDecidableEqBool (strLe a b) true

instance : IsTotal String strOrd :=
  ⟨fun a b => by
    have := lexLe_total a.toList b.toList
    rcases Bool.or_eq_true_iff.mp this with h | h
    · exact Or.inl h
    · exact Or.inr h⟩

instance : IsTrans String strOrd :=
  ⟨fun a b c hab hbc => lexLe_trans a.toList b.toList c.toList hab hbc⟩

/-- `_auto_detect_tags`: the deduplicated tag set, sorted (Python
`sorted` on a `set`, lexicographic code-point order). -/
def autoDetectTags (content : String) : List String :=
  (tagSet content).insertionSort strOrd


-- ──────────────────────────────────────────────
--  Tag generator properties (C7)
-- ──────────────────────────────────────────────

theorem foldl_preserves {α β : Type} (f : β → α → β) (P : β → Prop)
    (hf : ∀ s a, P s → P (f s a)) :
    ∀ (L : List α) (s : β), P s → P (L.foldl f s) := by
  intro L
  induction L with
  | nil => intro s h; exact h
  | cons a as ih => intro s h; exact ih (f s a) (hf s a h)

theorem mem_setAdd {y : String} {s : List String} (h : y ∈ s) (x : String) :
    y ∈ setAdd x s := by
  unfold setAdd
  split
  · exact h
  · exact List.mem_cons_of_mem x h

theorem nodup_setAdd {s : List String} (h : s.Nodup) (x : String) :
    (setAdd x s).Nodup := by
  unfold setAdd
  split
  · exact h
  · exact List.Nodup.cons (by assumption) h

theorem mem_addIf {y : String} {s : List String} (h : y ∈ s) (b : Bool) (x : String) :
    y ∈ addIf b x s := by
  unfold addIf
  split
  · exact mem_setAdd h x
  · exact h

theorem nodup_addIf {s : List String} (h : s.Nodup) (b : Bool) (x : String) :
    (addIf b x s).Nodup := by
  unfold addIf
  split
  · exact nodup_setAdd h x
  · exact h

theorem markerFold_preserves (P : List String → Prop)
    (hadd : ∀ s x, P s → P (setAdd x s))
    (L : List (String × String)) (lower : String) (s : List String) (h : P s) :
    P (L.foldl (fun s ml => if containsSub lower ml.1 then setAdd ml.2 s else s) s) := by
  induction L generalizing s with
  | nil => exact h
  | cons a as ih =>
      simp only [List.foldl_cons]
      apply ih
      split
      · exact hadd _ _ h
      · exact h

theorem aiChat_mem_tagSet (c : String) : "ai-chat" ∈ tagSet c := by
  unfold tagSet
  apply mem_addIf
  apply mem_addIf
  apply mem_addIf
  apply mem_addIf
  apply mem_addIf
  apply mem_addIf
  unfold tagSetBase
  exact markerFold_preserves (fun s => "ai-chat" ∈ s) (fun s x h => mem_setAdd h x)
    codeBlockTagMap (strLower c) _ (List.mem_singleton.mpr rfl)

theorem nodup_tagSet (c : String) : (tagSet c).Nodup := by
  unfold tagSet
  apply nodup_addIf
  apply nodup_addIf
  apply nodup_addIf
  apply nodup_addIf
  apply nodup_addIf
  apply nodup_addIf
  unfold tagSetBase
  exact markerFold_preserves (fun s => s.Nodup) (fun s x h => nodup_setAdd h x)
    codeBlockTagMap (strLower c) _ (List.nodup_singleton _)

/-- Claim C7: for every input text, the tag generator produces a sequence
with no duplicate values, always containing the base tag "ai-chat", and
sorted (in the Python string order the source sorts with). -/
theorem tag_generator_dedup_base_sorted (c : String) :
    (autoDetectTags c).Nodup ∧ "ai-chat" ∈ autoDetectTags c ∧
      List.Sorted strOrd (autoDetectTags c) := by
  refine ⟨?_, ?_, ?_⟩
  · exact ((List.perm_insertionSort strOrd (tagSet c)).nodup_iff).mpr (nodup_tagSet c)
  · exact ((List.perm_insertionSort strOrd (tagSet c)).mem_iff).mpr (aiChat_mem_tagSet c)
  · exact List.sorted_insertionSort strOrd (tagSet c)

-- ──────────────────────────────────────────────
--  Proximity-stage java guard (C6)
-- ──────────────────────────────────────────────

theorem containsSub_trans_of_sub {t pat sub : String}
    (hsub : sub.toList <:+: pat.toList) (h : containsSub t pat = true) :
    containsSub t sub = true := by
  unfold containsSub at h ⊢
  exact decide_eq_true (hsub.trans (of_decide_eq_true h))

theorem scanLabels_no_java (t : String) (hs : containsSub t "script" = true) :
    ∀ L : List (String × String), (∀ p ∈ L, p.2 = "java" → p.1 = "java") →
      scanLabels L t ≠ some "java" := by
  intro L
  induction L with
  | nil => intro _; simp [scanLabels]
  | cons p rest ih =>
      intro hall
      obtain ⟨label, lang⟩ := p
      by_cases hin : containsSub t label = true
      · by_cases hj : (decide (label = "java") && containsSub t "script") = true
        · simpa [scanLabels, hin, hj] using
            ih (fun q hq h => hall q (List.mem_cons_of_mem _ hq) h)
        · have hred : scanLabels ((label, lang) :: rest) t = some lang := by
            simp [scanLabels, hin, hj]
          rw [hred]
          intro hcon
          have hl : lang = "java" := by injection hcon
          have hlab : label = "java" := hall (label, lang) (List.mem_cons_self _ _) hl
          simp [hlab, hs] at hj
      · simpa [scanLabels, hin] using
          ih (fun q hq h => hall q (List.mem_cons_of_mem _ hq) h)

/-- Claim C6: in the proximity stage, a preceding-block text containing
"script" — in particular any text containing "javascript" — is never
classified as "java": the alias scan skips the literal token "java"
whenever the text also contains "script". -/
theorem proximity_never_java_from_javascript (t : String) :
    (containsSub t "script" = true → scanLabels labelMap t ≠ some "java") ∧
    (containsSub t "javascript" = true → scanLabels labelMap t ≠ some "java") := by
  have hside : ∀ p ∈ labelMap, p.2 = "java" → p.1 = "java" := by decide
  constructor
  · intro hs
    exact scanLabels_no_java t hs labelMap hside
  · intro hjs
    have hs : containsSub t "script" = true :=
      @containsSub_trans_of_sub t "javascript" "script" ⟨"java".toList, [], by decide⟩ hjs
    exact scanLabels_no_java t hs labelMap hside

/-- Witness for C6 at a concrete text: "pure javascript here" contains
both substrings and the proximity scan does not answer "java". -/
theorem proximity_never_java_from_javascript_witness :
    containsSub "pure javascript here" "javascript" = true ∧
      scanLabels labelMap "pure javascript here" ≠ some "java" :=
  ⟨by decide,
   (proximity_never_java_from_javascript "pure javascript here").2 (by decide)⟩

-- ──────────────────────────────────────────────
--  Classifier totality and priority (C3, C2)
-- ──────────────────────────────────────────────

/-- Claim C3 (code bug): the classifier does not always return a string.
Stage 1 guards the parent access (`el.parent.get(...) if el.parent else
[]`), but stage 2 evaluates `el.parent.find_all_previous(...)` without a
guard, so a code element with no parent and no language class raises
`AttributeError` instead of returning the empty string.  A parentless
element whose own class matches in stage 1 still succeeds, which shows
the failure is confined to the unguarded stage-2 access. -/
theorem classifier_raises_on_parentless :
    getCodeLanguage (.elem 0 "code" [] [.text 1 "print(hello)"]) [] =
      .error "AttributeError: NoneType object has no attribute find_all_previous" ∧
    getCodeLanguage (.elem 0 "code" [("class", "language-python")] [.text 1 "x = 1"]) [] =
      .ok "python" := by
  constructor
  · rfl
  · rfl

/-- Claim C2: the classifier is a pure function of the element and its
document context (two invocations agree), a stage-1 class-marker match is
returned regardless of what later stages would say, and — when stage 1
found nothing and the element has a parent — a stage-2 proximity match is
returned regardless of what stage 3 would say. -/
theorem classifier_deterministic_cascade (root : Node) (path : List Nat) :
    (getCodeLanguage root path = getCodeLanguage root path) ∧
    (∀ l, classStage root path = some l → getCodeLanguage root path = .ok l) ∧
    (∀ l, classStage root path = none → path ≠ [] →
      proximityStage root path.dropLast = some l →
      ∀ el, getAt root path = some el → getCodeLanguage root path = .ok l) := by
  refine ⟨rfl, ?_, ?_⟩
  · intro l h
    unfold getCodeLanguage
    cases hg : getAt root path with
    | none =>
        rw [classStage, hg] at h
        exact absurd h (by simp)
    | some el => simp [hg, h]
  · intro l hc hp hprox el hel
    unfold getCodeLanguage
    simp [hel, hc, hp, hprox]

/-- Witness for C2 applying both cascade-priority clauses at concrete
elements: a code element whose parent carries `class="language-python"`
resolves in stage 1, and an unlabeled code element preceded by a
paragraph mentioning Python resolves in stage 2. -/
theorem classifier_deterministic_cascade_witness :
    getCodeLanguage (.elem 0 "pre" [("class", "language-python")]
        [.elem 1 "code" [] [.text 2 "x = 1"]]) [0] = .ok "python" ∧
    getCodeLanguage (.elem 0 "[document]" []
        [.elem 1 "p" [] [.text 2 "Here is some Python code:"],
         .elem 3 "div" [] [.elem 4 "code" [] [.text 5 "x = 1"]]]) [1, 0] = .ok "python" := by
  constructor
  · exact (classifier_deterministic_cascade _ [0]).2.1 "python" (by decide)
  · exact (classifier_deterministic_cascade _ [1, 0]).2.2 "python" (by decide)
      (by decide) (by decide) (Node.elem 4 "code" [] [Node.text 5 "x = 1"]) (by decide)

-- ──────────────────────────────────────────────
--  Title Extractor (extract_full_page, phase 0)
-- ──────────────────────────────────────────────

/-- The separator class `[-–—|]` of the title-cleanup patterns. -/
def sepChars : List Char := ['-', '–', '—', '|']

/-- Consume a literal case-insensitively from the front. -/
def dropLitCi (lit : String) (cs : List Char) : Option (List Char) :=
  go lit.toList cs
where
  go : List Char → List Char → Option (List Char)
    | [], rest => some rest
    | _ :: _, [] => none
    | p :: ps, c :: rest => if p.toLower = c.toLower then go ps rest else none

/-- `re.sub(r"(?i)^conversation\s+with\s+", "", s)`: the pattern is
anchored and its quantifiers are determined (whitespace runs end exactly
where the following literal begins), so the removed extent is the
maximal-munch parse. -/
def stripConvWith (s : String) : String :=
  match dropLitCi "conversation" s.toList with
  | none => s
  | some r1 =>
      match r1 with
      | [] => s
      | c1 :: _ =>
          if wsChar c1 then
            match dropLitCi "with" (r1.dropWhile wsChar) with
            | none => s
            | some r2 =>
                match r2 with
                | [] => s
                | c2 :: _ =>
                    if wsChar c2 then String.mk (r2.dropWhile wsChar) else s
          else s

/-- The pattern `\s*[-–—|]\s*{name}\s*$` (applied to a lowercased
suffix). -/
def brandTrailPat (nm : String) : List PatItem :=
  [.star wsChar, .one (· ∈ sepChars), .star wsChar, .lit (strLower nm).toList, .star wsChar]

/-- First index whose suffix is fully matched by the pattern. -/
def firstFullIdx (pat : List PatItem) : Nat → List Char → Option Nat
  | i, cs =>
      if fullMatch pat cs then some i
      else
        match cs with
        | [] => none
        | _ :: t => firstFullIdx pat (i + 1) t

/-- `re.sub(rf"(?i)\s*[-–—|]\s*{name}\s*$", "", s)`: the match, if any, is
the leftmost position from which the pattern reaches the end of the
string; everything from there on is removed. -/
def stripTrailingBrand (nm : String) (s : String) : String :=
  match firstFullIdx (brandTrailPat nm) 0 (strLower s).toList with
  | some i => String.mk (s.toList.take i)
  | none => s

/-- `re.sub(rf"(?i)^{name}\s*[-–—|]\s*", "", s)`: anchored at the start;
the greedy trailing `\s*` consumes the maximal whitespace run. -/
def stripLeadingBrand (nm : String) (s : String) : String :=
  match dropLitCi nm s.toList with
  | none => s
  | some r1 =>
      match r1.dropWhile wsChar with
      | [] => s
      | c :: rest => if c ∈ sepChars then String.mk (rest.dropWhile wsChar) else s

/-- Phase 0 of `extract_full_page`: normalize a raw page-metadata title.
Strips the "Conversation with " prefix, then for every platform name (in
table order) a trailing and then a leading brand segment, then residual
separator characters and spaces from both ends (`strip(" -–—|")`).
Returns nothing when the result is empty (`if cleaned:`). -/
def cleanTitle (raw : String) : Option String :=
  let c0 := stripConvWith raw
  let c1 := platformNames.foldl (fun s nm => stripLeadingBrand nm (stripTrailingBrand nm s)) c0
  let c2 := pyStripSet [' ', '-', '–', '—', '|'] c1
  if c2 = "" then none else some c2

/-- Claim C5: the Title Extractor strips the case-insensitive
"Conversation with " prefix, strips leading or trailing brand segments
separated by a dash or pipe for every known platform name
(case-insensitively), trims residual separators and whitespace, maps
"Merge Sort Explanation - ChatGPT" to "Merge Sort Explanation", and
yields an absent title when normalization leaves nothing. -/
theorem title_extractor_normalization :
    cleanTitle "Merge Sort Explanation - ChatGPT" = some "Merge Sort Explanation" ∧
    (platformNames.all
      (fun nm => cleanTitle ("Quick Sort Notes - " ++ nm) == some "Quick Sort Notes")) = true ∧
    (platformNames.all
      (fun nm => cleanTitle (nm ++ " | Quick Sort Notes") == some "Quick Sort Notes")) = true ∧
    cleanTitle "conversation WITH assistant - chatgpt" = some "assistant" ∧
    cleanTitle "- ChatGPT" = none ∧
    cleanTitle " - — | " = none := by
  refine ⟨by decide, by decide, by decide, by decide, by decide, by decide⟩

-- ──────────────────────────────────────────────
--  Artifact Stripper (_strip_platform_artifacts)
-- ──────────────────────────────────────────────

/-- `[-_]?` -/
def dashUnd (c : Char) : Bool := c = '-' || c = '_'

/-- `_SIDEBAR_CLASS_RE` as an alternation (IGNORECASE handled by lowering
the text; `side.nav` has a true regex dot). -/
def sidebarAlts : List (List PatItem) :=
  [[.lit "sidebar".toList], [.lit "side-bar".toList], [.lit "sidenav".toList],
   [.lit "side".toList, .one (fun _ => true), .lit "nav".toList],
   [.lit "drawer".toList],
   [.lit "nav".toList, .optC dashUnd, .lit "rail".toList],
   [.lit "chat".toList, .optC dashUnd, .lit "list".toList],
   [.lit "conversation".toList, .optC dashUnd, .lit "list".toList],
   [.lit "history".toList, .optC dashUnd, .lit "panel".toList],
   [.lit "left".toList, .optC dashUnd, .lit "panel".toList],
   [.lit "left".toList, .optC dashUnd, .lit "nav".toList],
   [.lit "menu".toList, .optC dashUnd, .lit "panel".toList],
   [.lit "threads".toList, .optC dashUnd, .lit "list".toList],
   [.lit "thread".toList, .optC dashUnd, .lit "list".toList]]

/-- `_SIDEBAR_ARIA_RE`. -/
def ariaAlts : List (List PatItem) :=
  [[.lit "conversation".toList], [.lit "recent chat".toList],
   [.lit "chat history".toList], [.lit "sidebar".toList],
   [.lit "navigation".toList], [.lit "threads".toList],
   [.lit "previous chat".toList], [.lit "menu".toList]]

/-- `_OVERLAY_CLASS_RE`. -/
def overlayAlts : List (List PatItem) :=
  [[.lit "tooltip".toList], [.lit "popover".toList], [.lit "modal".toList],
   [.lit "overlay".toList], [.lit "backdrop".toList], [.lit "snackbar".toList]]

/-- `_USER_MSG_CLASS_RE`. -/
def userMsgAlts : List (List PatItem) :=
  [[.lit "user".toList, .optC dashUnd, .lit "message".toList],
   [.lit "human".toList, .optC dashUnd, .lit "message".toList],
   [.lit "query".toList, .optC dashUnd, .lit "message".toList],
   [.lit "user".toList, .optC dashUnd, .lit "turn".toList],
   [.lit "human".toList, .optC dashUnd, .lit "turn".toList],
   [.lit "request".toList, .optC dashUnd, .lit "row".toList],
   [.lit "user".toList, .optC dashUnd, .lit "row".toList],
   [.lit "prompt".toList, .optC dashUnd, .lit "row".toList]]

/-- `find_all(class_=regex)`: the regex is searched against each
individual class value, and — when none matches — against the
space-joined attribute value (BeautifulSoup's multi-valued attribute
matching). -/
def matchesClassRe (alts : List (List PatItem)) (attrs : List (String × String)) : Bool :=
  let toks := classListOf attrs
  toks.any (fun t => searchIn alts (strLower t).toList) ||
    searchIn alts (strLower (String.intercalate " " toks)).toList

def pAside (t : String) (_ : List (String × String)) : Bool := t = "aside"

def pRole (r : String) (_ : String) (a : List (String × String)) : Bool :=
  getAttr a "role" = some r

def pSidebarClass (_ : String) (a : List (String × String)) : Bool :=
  matchesClassRe sidebarAlts a

def pAriaSidebar (_ : String) (a : List (String × String)) : Bool :=
  match getAttr a "aria-label" with
  | some v => searchIn ariaAlts (strLower v).toList
  | none => false

def pTitleTag (t : String) (_ : List (String × String)) : Bool := t = "title"

def pEditable (_ : String) (a : List (String × String)) : Bool :=
  getAttr a "contenteditable" = some "true"

def pTextInput (t : String) (_ : List (String × String)) : Bool :=
  t = "textarea" || t = "input"

def pOverlayClass (_ : String) (a : List (String × String)) : Bool :=
  matchesClassRe overlayAlts a

/-- Does a navigable string match `^\s*{name}\s*$` (IGNORECASE)?  All
platform names begin and end with non-whitespace, so this is exactly
strip-then-compare. -/
def brandMatch (s nm : String) : Bool :=
  strLower (pyStrip s) = strLower nm

/-- The parent tags eligible for brand-text removal. -/
def allowedBrandParent : List String :=
  ["h1", "h2", "h3", "h4", "h5", "h6", "span", "div", "a", "p", "label"]

/-- `find_all(string=pattern)` for one platform name: the identities of
the matching text nodes, in document order, collected before any
decomposition. -/
def brandTextIds (nm : String) (root : Node) : List Nat :=
  (textNodes root).filterMap (fun is => if brandMatch is.2 nm then some is.1 else none)

/-- Process one collected text node: if it is still in the (evolving)
tree, its parent is a heading/span/div/anchor/paragraph/label, and the
parent's full stripped text is exactly the brand name (optionally with
the decorative glyph prefix), decompose the parent. -/
def brandStep (nm : String) (root : Node) (tid : Nat) : Node :=
  match parentOfTextId tid root with
  | none => root
  | some p =>
      match p with
      | .text _ _ => root
      | .elem pid ptag _ _ =>
          if ptag ∈ allowedBrandParent then
            let pt := strLower (getTextStrip p)
            if pt = strLower nm || pt = "✨ " ++ strLower nm then
              removeAll (fun n => nodeId n = pid) root
            else root
          else root

/-- One platform name of the branding loop: collect matching text nodes,
then decompose qualifying parents one at a time (checks are evaluated on
the tree as it evolves, as in the source's collect-then-iterate loop). -/
def brandPassName (nm : String) (root : Node) : Node :=
  (brandTextIds nm root).foldl (brandStep nm) root

/-- Step 2b of the stripper: the branding loop over `_PLATFORM_NAMES`. -/
def brandPass (root : Node) : Node :=
  platformNames.foldl (fun r nm => brandPassName nm r) root

/-- `_strip_platform_artifacts`: the passes run in source order, so they
are listed innermost (first pass) last: aside landmarks; the
complementary and navigation roles; sidebar classes; sidebar aria-labels;
title tags; brand text nodes; contenteditable regions; textarea/input;
the dialog, tooltip and alertdialog roles; overlay classes. -/
def stripArtifacts (root : Node) : Node :=
  removeAll (localPred pOverlayClass) <|
  removeAll (localPred (pRole "alertdialog")) <|
  removeAll (localPred (pRole "tooltip")) <|
  removeAll (localPred (pRole "dialog")) <|
  removeAll (localPred pTextInput) <|
  removeAll (localPred pEditable) <|
  brandPass <|
  removeAll (localPred pTitleTag) <|
  removeAll (localPred pAriaSidebar) <|
  removeAll (localPred pSidebarClass) <|
  removeAll (localPred (pRole "navigation")) <|
  removeAll (localPred (pRole "complementary")) <|
  removeAll (localPred pAside) root

/-- The document of the C8 counterexample: a div holding the bare text
"ChatGPT" next to a textarea.  The first pass keeps the div (its full
text is "ChatGPTdraft message") but deletes the textarea; the second pass
then sees a div whose full text is exactly the brand name and deletes
it. -/
def brandDoc : Node :=
  .elem 0 "[document]" []
    [.elem 1 "html" []
      [.elem 2 "body" []
        [.elem 3 "div" []
          [.text 4 "ChatGPT",
           .elem 5 "textarea" [] [.text 6 "draft message"]]]]]


/-- Tag/attribute predicates are insensitive to child removal. -/
theorem localPred_removeAll (f : String → List (String × String) → Bool)
    (p : Node → Bool) (n : Node) : localPred f (removeAll p n) = localPred f n := by
  cases n <;> rfl

theorem removeAll_comp (f g : String → List (String × String) → Bool) :
    ∀ n, removeAll (localPred g) (removeAll (localPred f) n) =
      removeAll (localPred (fun t a => f t a || g t a)) n := by
  apply nodeRec
    (fun n => removeAll (localPred g) (removeAll (localPred f) n) =
      removeAll (localPred (fun t a => f t a || g t a)) n)
    (fun l => removeAllL (localPred g) (removeAllL (localPred f) l) =
      removeAllL (localPred (fun t a => f t a || g t a)) l)
  · intro i t a cs ih
    simp only [removeAll, ih]
  · intro i s
    rfl
  · rfl
  · intro c cs ihc ihl
    simp only [removeAllL]
    by_cases hf : localPred f c = true
    · rw [if_pos hf]
      have hcomb : localPred (fun t a => f t a || g t a) c = true := by
        cases c <;> simp_all [localPred]
      rw [if_pos hcomb]
      exact ihl
    · rw [if_neg hf]
      simp only [removeAllL, localPred_removeAll]
      by_cases hg : localPred g c = true
      · rw [if_pos hg]
        have hcomb : localPred (fun t a => f t a || g t a) c = true := by
          cases c <;> simp_all [localPred]
        rw [if_pos hcomb]
        exact ihl
      · rw [if_neg hg]
        have hcomb : ¬ localPred (fun t a => f t a || g t a) c = true := by
          cases c <;> simp_all [localPred]
        rw [if_neg hcomb, ihc, ihl]

theorem textNodes_removeAll (p : Node → Bool) :
    ∀ n, ∀ x, x ∈ textNodes (removeAll p n) → x ∈ textNodes n := by
  apply nodeRec
    (fun n => ∀ x, x ∈ textNodes (removeAll p n) → x ∈ textNodes n)
    (fun l => ∀ x, x ∈ textNodesL (removeAllL p l) → x ∈ textNodesL l)
  · intro i t a cs ih x hx
    simp only [removeAll, textNodes] at hx ⊢
    exact ih x hx
  · intro i s x hx
    exact hx
  · intro x hx
    exact hx
  · intro c cs ihc ihl x hx
    simp only [removeAllL] at hx
    simp only [textNodesL]
    by_cases hp : p c = true
    · rw [if_pos hp] at hx
      exact List.mem_append_right _ (ihl x hx)
    · rw [if_neg hp] at hx
      simp only [textNodesL] at hx
      rcases List.mem_append.mp hx with h | h
      · exact List.mem_append_left _ (ihc x h)
      · exact List.mem_append_right _ (ihl x h)

/-- No navigable string of the document is exactly a platform brand name
(the precondition under which the branding pass finds nothing). -/
def noBrandTexts (root : Node) : Bool :=
  (textNodes root).all (fun is => platformNames.all (fun nm => !(brandMatch is.2 nm)))

theorem noBrandTexts_removeAll (p : Node → Bool) {n : Node}
    (h : noBrandTexts n = true) : noBrandTexts (removeAll p n) = true := by
  unfold noBrandTexts at h ⊢
  rw [List.all_eq_true] at h ⊢
  intro x hx
  exact h x (textNodes_removeAll p n x hx)

theorem brandTextIds_nil {nm : String} {root : Node} (hmem : nm ∈ platformNames)
    (h : noBrandTexts root = true) : brandTextIds nm root = [] := by
  unfold brandTextIds
  rw [List.filterMap_eq_nil_iff]
  intro x hx
  have h1 := (List.all_eq_true.mp h) x hx
  have h2 := (List.all_eq_true.mp h1) nm hmem
  simp only [Bool.not_eq_true'] at h2
  simp [h2]

theorem brandPassName_id {nm : String} {root : Node}
    (h : brandTextIds nm root = []) : brandPassName nm root = root := by
  unfold brandPassName
  rw [h]
  rfl

theorem brandPass_id {root : Node} (h : noBrandTexts root = true) :
    brandPass root = root := by
  unfold brandPass
  have main : ∀ L : List String, (∀ nm ∈ L, nm ∈ platformNames) →
      L.foldl (fun r nm => brandPassName nm r) root = root := by
    intro L
    induction L with
    | nil => intro _; rfl
    | cons nm ns ih =>
        intro hsub
        simp only [List.foldl_cons]
        rw [brandPassName_id (brandTextIds_nil (hsub nm (List.mem_cons_self _ _)) h)]
        exact ih (fun m hm => hsub m (List.mem_cons_of_mem _ hm))
  exact main platformNames (fun _ hm => hm)

/-- The union of all tag/attribute-level removal criteria of the
stripper, in pass order. -/
def stripCombined (t : String) (a : List (String × String)) : Bool :=
  ((((((((((pAside t a || pRole "complementary" t a) || pRole "navigation" t a) ||
  pSidebarClass t a) || pAriaSidebar t a) || pTitleTag t a) || pEditable t a) ||
  pTextInput t a) || pRole "dialog" t a) || pRole "tooltip" t a) ||
  pRole "alertdialog" t a) || pOverlayClass t a

theorem stripArtifacts_eq_removeAll {root : Node} (h : noBrandTexts root = true) :
    stripArtifacts root = removeAll (localPred stripCombined) root := by
  unfold stripArtifacts
  rw [brandPass_id (noBrandTexts_removeAll _ (noBrandTexts_removeAll _
    (noBrandTexts_removeAll _ (noBrandTexts_removeAll _ (noBrandTexts_removeAll _
    (noBrandTexts_removeAll _ h))))))]
  simp only [removeAll_comp]
  rfl

/-- Claim C8 (counterexample): the Artifact Stripper is not idempotent.
On `brandDoc` the first application removes only the textarea; the later
input-area pass exposes a div whose entire text is now exactly "ChatGPT",
which only the branding rule of the second application removes. -/
theorem stripper_not_idempotent :
    stripArtifacts (stripArtifacts brandDoc) ≠ stripArtifacts brandDoc := by
  decide

/-- Claim C8 (amended): the Artifact Stripper is idempotent on every
document with no navigable string that is exactly a platform brand name
(modulo surrounding whitespace and case).  In general a second
application can remove more: removing input areas or overlays can leave
a container whose remaining text is exactly a brand name, which only the
next application's branding rule deletes. -/
theorem stripper_idempotent_without_brand_texts (doc : Node)
    (h : noBrandTexts doc = true) :
    stripArtifacts (stripArtifacts doc) = stripArtifacts doc := by
  have e1 := stripArtifacts_eq_removeAll h
  have h2 : noBrandTexts (stripArtifacts doc) = true := by
    rw [e1]
    exact noBrandTexts_removeAll _ h
  have e2 := stripArtifacts_eq_removeAll h2
  rw [e2, e1, removeAll_comp]
  have hor : (fun (t : String) (a : List (String × String)) =>
      stripCombined t a || stripCombined t a) = stripCombined :=
    funext fun t => funext fun a => Bool.or_self _
  rw [hor]

/-- Witness for the amended C8 at a concrete brand-free document with a
sidebar, an input area and real content. -/
theorem stripper_idempotent_without_brand_texts_witness :
    noBrandTexts
      (.elem 0 "[document]" []
        [.elem 1 "html" []
          [.elem 2 "aside" [] [.text 3 "old chats"],
           .elem 4 "main" []
             [.text 5 "hello world", .elem 6 "textarea" [] [.text 7 "draft"]]]]) = true ∧
    stripArtifacts (stripArtifacts
      (.elem 0 "[document]" []
        [.elem 1 "html" []
          [.elem 2 "aside" [] [.text 3 "old chats"],
           .elem 4 "main" []
             [.text 5 "hello world", .elem 6 "textarea" [] [.text 7 "draft"]]]])) =
      stripArtifacts
        (.elem 0 "[document]" []
          [.elem 1 "html" []
            [.elem 2 "aside" [] [.text 3 "old chats"],
             .elem 4 "main" []
               [.text 5 "hello world", .elem 6 "textarea" [] [.text 7 "draft"]]]]) :=
  ⟨by decide, stripper_idempotent_without_brand_texts _ (by decide)⟩

-- ──────────────────────────────────────────────
--  Extraction pipeline data model
-- ──────────────────────────────────────────────

/-- The exporter settings consumed by the conversion pipeline
(config_loader.ExporterSettings; only the fields the converter reads are
modelled). -/
structure ExporterSettings where
  strip_buttons : Bool
  heading_style : String
  date_format : String
deriving DecidableEq

/-- AppConfig, as far as the converter touches it. -/
structure AppConfig where
  settings : ExporterSettings
deriving DecidableEq

/-- ExtractionResult (converter.py dataclass). -/
structure ExtractionResult where
  success : Bool
  markdown : Option String
  message : String
  word_count : Nat
  detected_languages : List String
  title : Option String
deriving DecidableEq

/-- The state of the input file: missing, unreadable bytes
(UnicodeDecodeError from `_load_html`), or a parsed document.  Parsing
itself never fails in BeautifulSoup, so every byte-decodable file yields
a soup. -/
inductive FileInput where
  | missing
  | undecodable
  | parsed (soup : Node)

/-- The external HTML→Markdown renderer (markdownify), a black-box
collaborator: it receives the heading style and the isolated subtree. -/
def Renderer : Type := String → Node → String

mutual

/-- bs4 `Tag.__eq__` / `NavigableString.__eq__`: recursive value
equality on name, attributes and contents — object identity ignored. -/
def valueEqNode : Node → Node → Bool
  | .text _ s, .text _ u => s = u
  | .elem _ t a cs, .elem _ u b ds => t = u && decide (a = b) && valueEqNodeL cs ds
  | _, _ => false

def valueEqNodeL : List Node → List Node → Bool
  | [], [] => true
  | c :: cs, d :: ds => valueEqNode c d && valueEqNodeL cs ds
  | _, _ => false

end

/-- `re.sub(r"\n{4,}", "\n\n\n", ·)`: collapse every run of four or more
newlines to exactly three. -/
def collapseNl : Nat → List Char → List Char
  | k, [] => List.replicate (if k ≥ 4 then 3 else k) '\n'
  | k, c :: cs =>
      if c = '\n' then collapseNl (k + 1) cs
      else List.replicate (if k ≥ 4 then 3 else k) '\n' ++ c :: collapseNl 0 cs

def collapseBlankLines (s : String) : String :=
  String.mk (collapseNl 0 s.toList)

-- ──────────────────────────────────────────────
--  Content Isolator — phrase mode (extract_response)
-- ──────────────────────────────────────────────

/-- Step 1: `soup.find(string=lambda text: text and search_phrase.lower()
in text.lower())` — the path of the first text node, in document order,
that is non-empty and contains the phrase case-insensitively. -/
def findPhrasePath (soup : Node) (phrase : String) : Option (List Nat) :=
  ((preorderPaths soup).find? (fun pn =>
    match pn.2 with
    | .text _ s => s ≠ "" && containsSub (strLower s) (strLower phrase)
    | .elem _ _ _ _ => false)).map Prod.fst

/-- Step 2: ascend from the text node's parent until the tag is one of
div/li/article/section; ascending past the root yields no container. -/
def containerPath (soup : Node) (p : List Nat) : Option (List Nat) :=
  ((List.range p.length).reverse.map (fun k => p.take k)).find? (fun q =>
    match getAt soup q with
    | some (.elem _ t _ _) => decide (t ∈ ["div", "li", "article", "section"])
    | _ => false)

/-- Step 3: `container.find_all_next("div")` — document-order successors
of the container — skipping any div equal (bs4 value equality) to the
container; the first whose stripped text exceeds 20 characters is the
AI answer node. -/
def findAiNode (soup : Node) (cpath : List Nat) : Option Node :=
  match getAt soup cpath with
  | none => none
  | some container =>
      let pre := preorderPaths soup
      let idx := pre.findIdx (fun pn => pn.1 == cpath)
      ((pre.drop (idx + 1)).find? (fun pn =>
        match pn.2 with
        | .elem _ t _ _ =>
            t = "div" && !(valueEqNode pn.2 container) &&
              decide ((getTextStrip pn.2).length > 20)
        | .text _ _ => false)).map Prod.snd

/-- Step 4's removal list: the seven tag names, extended by two CSS
selector strings when `strip_buttons` is set. -/
def removableNames (stripButtons : Bool) : List String :=
  ["button", "svg", "img", "nav", "footer", "script", "style"] ++
    (if stripButtons then ["a[class*=\x27copy\x27]", "div[class*=\x27toolbar\x27]"] else [])

/-- Step 4 as written: `for tag in ai_node(removable[:6])` — only the
first six entries of the removal list are passed to `find_all`. -/
def phraseCleanup (stripButtons : Bool) (ai : Node) : Node :=
  removeAll (localPred (fun t _ => t ∈ (removableNames stripButtons).take 6)) ai

/-- `extract_response`: phrase-targeted extraction.  Every failure is
returned as a result record; the function never raises.  The renderer is
the external markdownify collaborator. -/
def extractResponse (render : Renderer) (input : FileInput) (phrase : String)
    (cfg : AppConfig) : ExtractionResult :=
  match input with
  | .missing => ⟨false, none, "File not found.", 0, [], none⟩
  | .undecodable => ⟨false, none, "Failed to read file — encoding issue.", 0, [], none⟩
  | .parsed soup =>
      match findPhrasePath soup phrase with
      | none => ⟨false, none, "Phrase not found in the document.", 0, [], none⟩
      | some p =>
          match containerPath soup p with
          | none => ⟨false, none, "Could not determine message container.", 0, [], none⟩
          | some cp =>
              match findAiNode soup cp with
              | none =>
                  ⟨false, none, "Found question, but couldn\x27t isolate the AI answer.",
                    0, [], none⟩
              | some ai =>
                  let ai2 := phraseCleanup cfg.settings.strip_buttons ai
                  let mdtext := collapseBlankLines (render cfg.settings.heading_style ai2)
                  let detected := autoDetectTags mdtext
                  -- `detected.discard("ai-chat") if isinstance(detected, set) else None`:
                  -- `_auto_detect_tags` returns a list, never a set, so the
                  -- discard arm never runs and `detected` is left unchanged.
                  ⟨true, some mdtext, "Extraction successful.", wordCount mdtext,
                    detected, none⟩

-- ──────────────────────────────────────────────
--  Content Isolator — full-page mode (extract_full_page)
-- ──────────────────────────────────────────────

/-- `soup.select("div[class*=\x27toolbar\x27], a[class*=\x27copy\x27]")`:
a CSS attribute-substring match against the (space-joined) class value,
case-sensitive. -/
def cssButtonStrip (t : String) (a : List (String × String)) : Bool :=
  (t = "div" && containsSub (String.intercalate " " (classListOf a)) "toolbar") ||
  (t = "a" && containsSub (String.intercalate " " (classListOf a)) "copy")

/-- The first node (document order) satisfying the predicate:
`soup.find(...)`. -/
def findFirstNode (p : Node → Bool) (root : Node) : Option Node :=
  ((preorderPaths root).find? (fun pn => p pn.2)).map Prod.snd

/-- All matching node identities in document order: the collection pass
of `find_all`. -/
def findAllIds (p : Node → Bool) (root : Node) : List Nat :=
  (preorderPaths root).filterMap (fun pn => if p pn.2 then some (nodeId pn.2) else none)

/-- An element carrying a given attribute/value pair exactly. -/
def pAttrEq (k v : String) : Node → Bool :=
  localPred (fun _ a => getAttr a k = some v)

/-- Identity-based first-occurrence deduplication (`seen: set[int]` of
`_simplify_user_messages`). -/
def dedupFirst : List Nat → List Nat :=
  go []
where
  go : List Nat → List Nat → List Nat
    | _, [] => []
    | seen, x :: xs => if x ∈ seen then go seen xs else x :: go (x :: seen) xs

/-- `_simplify_user_messages`: collect user-turn containers by the three
author-role attribute pairs and then by class pattern, deduplicate by
identity, and remove every `pre` descendant of each container still
present. -/
def simplifyUserMessages (root : Node) : Node :=
  let ids := dedupFirst
    (findAllIds (pAttrEq "data-message-author-role" "user") root ++
     findAllIds (pAttrEq "data-turn-role" "human") root ++
     findAllIds (pAttrEq "data-role" "user") root ++
     findAllIds (localPred (fun _ a => matchesClassRe userMsgAlts a)) root)
  ids.foldl (fun r cid =>
    mapAtId cid (removeAll (localPred (fun t _ => t = "pre"))) r) root

/-- Phase 4: `soup.find("main") or soup.find("div", role="main") or
soup.find("article") or soup.body or soup`. -/
def mainContent (soup : Node) : Node :=
  match findFirstNode (localPred (fun t _ => t = "main")) soup with
  | some n => n
  | none =>
      match findFirstNode (localPred (fun t a => t = "div" && getAttr a "role" = some "main"))
          soup with
      | some n => n
      | none =>
          match findFirstNode (localPred (fun t _ => t = "article")) soup with
          | some n => n
          | none =>
              match findFirstNode (localPred (fun t _ => t = "body")) soup with
              | some n => n
              | none => soup

/-- Consume `\s*$` under MULTILINE with the greedy extent: the longest
whitespace prefix whose stop position is a newline or the end of the
string.  Returns the remainder (beginning with that newline, or empty),
or nothing when no stop position exists. -/
def trailEnd (cs : List Char) : Option (List Char) :=
  let run := cs.takeWhile wsChar
  let rest := cs.drop run.length
  if rest = [] then some []
  else
    match run.reverse.findIdx? (· = '\n') with
    | some j => some (cs.drop (run.length - 1 - j))
    | none => none

/-- One match attempt of `^#+\s*{name}\s*$` (MULTILINE) at a line start:
`#`-run, whitespace run, the name case-insensitively, then `\s*$`.  All
quantifier extents are forced (each literal begins with a
non-whitespace, non-`#` character), so maximal munch is the regex
extent. -/
def matchHeadingName (nm : String) (cs : List Char) : Option (List Char) :=
  match cs with
  | [] => none
  | c :: _ =>
      if c = '#' then
        match dropLitCi nm ((cs.dropWhile (· = '#')).dropWhile wsChar) with
        | some r => trailEnd r
        | none => none
      else none

/-- One match attempt of `^#*?Conversation\s+with\s+\S+.*$` variants at a
line start: with `withHash` the pattern requires a leading `#`-run
(`^#+\s*Conversation…`), otherwise it is anchored directly at
`Conversation`.  `\s+` runs may cross newlines; `\S+.*$` consumes to the
end of the line reached. -/
def matchConvLine (withHash : Bool) (cs : List Char) : Option (List Char) :=
  let start : Option (List Char) :=
    if withHash then
      match cs with
      | c :: _ => if c = '#' then some ((cs.dropWhile (· = '#')).dropWhile wsChar) else none
      | [] => none
    else some cs
  match start with
  | none => none
  | some r0 =>
      match dropLitCi "conversation" r0 with
      | none => none
      | some r1 =>
          match r1 with
          | [] => none
          | c1 :: _ =>
              if wsChar c1 then
                match dropLitCi "with" (r1.dropWhile wsChar) with
                | none => none
                | some r2 =>
                    match r2 with
                    | [] => none
                    | c2 :: _ =>
                        if wsChar c2 then
                          match r2.dropWhile wsChar with
                          | [] => none
                          | c3 :: _ =>
                              if wsChar c3 then none
                              else some ((r2.dropWhile wsChar).dropWhile (fun c => c ≠ '\n'))
                        else none
              else none

/-- `re.sub(pattern, "", text)` for the MULTILINE line patterns: scan the
text; at every line start try the match, delete its extent on success
and continue after it.  The fuel is the text length; every successful
match consumes at least one character, so it never runs out. -/
def subScan (f : List Char → Option (List Char)) : Nat → Bool → List Char → List Char
  | 0, _, cs => cs
  | _ + 1, true, [] =>
      match f [] with
      | some rest => rest
      | none => []
  | fuel + 1, true, c :: t =>
      match f (c :: t) with
      | some rest => subScan f fuel false rest
      | none => c :: subScan f fuel (c = '\n') t
  | _ + 1, false, [] => []
  | fuel + 1, false, c :: t => c :: subScan f fuel (c = '\n') t

def applySub (f : List Char → Option (List Char)) (s : String) : String :=
  String.mk (subScan f (s.toList.length + 1) true s.toList)

/-- Phase 6 of `extract_full_page`: per-platform heading removal, the two
"Conversation with" line removals, blank-line collapsing, and stripping
leading newlines. -/
def postProcessFullPage (md : String) : String :=
  let m1 := platformNames.foldl (fun t nm => applySub (matchHeadingName nm) t) md
  let m2 := applySub (matchConvLine false) (applySub (matchConvLine true) m1)
  let m3 := collapseBlankLines m2
  String.mk (m3.toList.dropWhile (· = '\n'))

/-- `extract_full_page`: whole-page conversion.  Phase 0 reads the title
before any cleanup; phases 1–4 strip and simplify the DOM and select the
main content; phase 5 is the external renderer; phase 6 post-processes
the Markdown. -/
def extractFullPage (render : Renderer) (input : FileInput) (cfg : AppConfig) :
    ExtractionResult :=
  match input with
  | .missing => ⟨false, none, "File not found.", 0, [], none⟩
  | .undecodable => ⟨false, none, "Failed to read file — encoding issue.", 0, [], none⟩
  | .parsed soup =>
      let chatTitle :=
        match findFirstNode (localPred (fun t _ => t = "title")) soup with
        | none => none
        | some tn => cleanTitle (getTextStrip tn)
      let s1 := removeAll (localPred (fun t _ =>
        t ∈ ["button", "svg", "nav", "footer", "script", "style", "header"])) soup
      let s2 := if cfg.settings.strip_buttons then removeAll (localPred cssButtonStrip) s1
        else s1
      let s3 := stripArtifacts s2
      let s4 := simplifyUserMessages s3
      let md1 := postProcessFullPage (render cfg.settings.heading_style (mainContent s4))
      ⟨true, some md1, "Full-page export successful.", wordCount md1,
        autoDetectTags md1, chatTitle⟩

-- ──────────────────────────────────────────────
--  Claims about the pipeline (C1, C4, C9, C10)
-- ──────────────────────────────────────────────

/-- A document whose search phrase occurs only inside a sidebar history
item: a div with class "sidebar" holding the old-chat link, followed by
a long content div that does not contain the phrase. -/
def sideDoc : Node :=
  .elem 0 "[document]" []
    [.elem 1 "html" []
      [.elem 2 "body" []
        [.elem 3 "div" [("class", "sidebar")]
          [.elem 4 "a" [] [.text 5 "How do I implement merge sort?"]],
         .elem 6 "div" []
           [.text 7 "Here is a detailed answer about sorting algorithms."]]]]

/-- Claim C1 (counterexample): `extract_response` performs no artifact
stripping before the phrase search, so on `sideDoc` — where "merge sort"
occurs only inside the sidebar history item the Stripper would have
removed — the result is a successful extraction anchored on the sidebar
text, not a `PhraseNotFound` failure. -/
theorem phrase_mode_matches_sidebar_text :
    (extractResponse (fun _ _ => "") (.parsed sideDoc) "merge sort"
        ⟨⟨true, "ATX", "%Y-%m-%d"⟩⟩).success = true ∧
    (extractResponse (fun _ _ => "") (.parsed sideDoc) "merge sort"
        ⟨⟨true, "ATX", "%Y-%m-%d"⟩⟩).message = "Extraction successful." := by
  constructor
  · decide
  · decide

/-- Claim C1 (amended): in phrase mode the Artifact Stripper does not run
before isolation; the phrase search sees the unstripped document, so
whenever the phrase occurs in any non-empty text node — sidebar content
included — the result is never the `PhraseNotFound` failure. -/
theorem phrase_mode_searches_unstripped_document (render : Renderer) (soup : Node)
    (phrase : String) (cfg : AppConfig)
    (h : (findPhrasePath soup phrase).isSome) :
    (extractResponse render (.parsed soup) phrase cfg).message ≠
      "Phrase not found in the document." := by
  obtain ⟨p, hp⟩ := Option.isSome_iff_exists.mp h
  simp only [extractResponse, hp]
  cases hc : containerPath soup p with
  | none => dsimp only; decide
  | some cp =>
      cases ha : findAiNode soup cp with
      | none => simp only [ha]; decide
      | some ai => simp only [ha]; decide

/-- Witness for the amended C1 at `sideDoc`. -/
theorem phrase_mode_searches_unstripped_document_witness :
    (findPhrasePath sideDoc "merge sort").isSome = true ∧
    (extractResponse (fun _ _ => "") (.parsed sideDoc) "merge sort"
        ⟨⟨false, "ATX", "%Y-%m-%d"⟩⟩).message ≠ "Phrase not found in the document." :=
  ⟨by decide,
   phrase_mode_searches_unstripped_document (fun _ _ => "") sideDoc "merge sort"
     ⟨⟨false, "ATX", "%Y-%m-%d"⟩⟩ (by decide)⟩

/-- Claim C4 (code bug): the cleanup step slices `removable[:6]`, so only
button/svg/img/nav/footer/script are ever removed: `style` elements
survive, and the two selector strings appended under `strip_buttons`
are discarded by the slice (and would not match as tag names anyway) —
the flag has no effect in phrase mode.  On a subtree holding a style
element, a copy-button anchor and a toolbar div, only the nested button
is removed even with `strip_buttons` enabled. -/
theorem phrase_cleanup_misses_style_and_buttons :
    (removableNames true).take 6 = ["button", "svg", "img", "nav", "footer", "script"] ∧
    (∀ b n, phraseCleanup b n = phraseCleanup false n) ∧
    phraseCleanup true
      (.elem 0 "section" []
        [.elem 1 "style" [] [.text 2 "body color red"],
         .elem 3 "a" [("class", "copy-button")] [.text 4 "Copy"],
         .elem 5 "div" [("class", "toolbar")] [.elem 6 "button" [] [.text 7 "x"]]]) =
      (.elem 0 "section" []
        [.elem 1 "style" [] [.text 2 "body color red"],
         .elem 3 "a" [("class", "copy-button")] [.text 4 "Copy"],
         .elem 5 "div" [("class", "toolbar")] []]) := by
  refine ⟨by decide, ?_, by decide⟩
  intro b n
  cases b
  · rfl
  · rfl

/-- "ai-chat" is always among the generated tags (shared helper). -/
theorem aiChat_mem_autoDetectTags (m : String) : "ai-chat" ∈ autoDetectTags m :=
  ((List.perm_insertionSort strOrd (tagSet m)).mem_iff).mpr (aiChat_mem_tagSet m)

/-- Claim C9: both pipeline entry points recover every failure condition
into a result record instead of raising — the embedding is total and
each failure branch returns `success = false` with its fixed non-empty
human-readable message: FileNotFound and EncodingError in both modes,
and PhraseNotFound, ContainerAmbiguous and ResponseNotIsolated in phrase
mode.  The message of any result, success included, is non-empty. -/
theorem pipeline_failures_are_results (render : Renderer) (input : FileInput)
    (phrase : String) (cfg : AppConfig) :
    ((extractResponse render input phrase cfg).message ≠ "") ∧
    ((extractFullPage render input cfg).message ≠ "") ∧
    (extractResponse render .missing phrase cfg =
      ⟨false, none, "File not found.", 0, [], none⟩) ∧
    (extractResponse render .undecodable phrase cfg =
      ⟨false, none, "Failed to read file — encoding issue.", 0, [], none⟩) ∧
    (extractFullPage render .missing cfg =
      ⟨false, none, "File not found.", 0, [], none⟩) ∧
    (extractFullPage render .undecodable cfg =
      ⟨false, none, "Failed to read file — encoding issue.", 0, [], none⟩) ∧
    (∀ soup, findPhrasePath soup phrase = none →
      extractResponse render (.parsed soup) phrase cfg =
        ⟨false, none, "Phrase not found in the document.", 0, [], none⟩) ∧
    (∀ soup p, findPhrasePath soup phrase = some p → containerPath soup p = none →
      extractResponse render (.parsed soup) phrase cfg =
        ⟨false, none, "Could not determine message container.", 0, [], none⟩) ∧
    (∀ soup p cp, findPhrasePath soup phrase = some p → containerPath soup p = some cp →
      findAiNode soup cp = none →
      extractResponse render (.parsed soup) phrase cfg =
        ⟨false, none, "Found question, but couldn\x27t isolate the AI answer.",
          0, [], none⟩) := by
  refine ⟨?_, ?_, rfl, rfl, rfl, rfl, ?_, ?_, ?_⟩
  · cases input with
    | missing => simp only [extractResponse]; decide
    | undecodable => simp only [extractResponse]; decide
    | parsed soup =>
        cases hp : findPhrasePath soup phrase with
        | none => simp only [extractResponse, hp]; decide
        | some p =>
            cases hc : containerPath soup p with
            | none => simp only [extractResponse, hp, hc]; decide
            | some cp =>
                cases ha : findAiNode soup cp with
                | none => simp only [extractResponse, hp, hc, ha]; decide
                | some ai => simp only [extractResponse, hp, hc, ha]; decide
  · cases input with
    | missing => simp only [extractFullPage]; decide
    | undecodable => simp only [extractFullPage]; decide
    | parsed soup => simp only [extractFullPage]; decide
  · intro soup hnone
    simp only [extractResponse, hnone]
  · intro soup p hp hc
    simp only [extractResponse, hp, hc]
  · intro soup p cp hp hc ha
    simp only [extractResponse, hp, hc, ha]

/-- Witness for C9 at a concrete document without the phrase: the
PhraseNotFound failure is a result record, not an exception. -/
theorem pipeline_failures_are_results_witness :
    extractResponse (fun _ _ => "")
        (.parsed (.elem 0 "[document]" [] [.text 1 "nothing here"])) "quicksort"
        ⟨⟨true, "ATX", "%Y-%m-%d"⟩⟩ =
      ⟨false, none, "Phrase not found in the document.", 0, [], none⟩ :=
  (pipeline_failures_are_results (fun _ _ => "")
      (.parsed (.elem 0 "[document]" [] [.text 1 "nothing here"])) "quicksort"
      ⟨⟨true, "ATX", "%Y-%m-%d"⟩⟩).2.2.2.2.2.2.1 _ (by decide)

/-- Claim C10: every successful extraction, in either mode, carries
"ai-chat" among its detected languages — `_auto_detect_tags` always
seeds the base tag, and the phrase-mode line meant to discard it only
runs when the value is a set, which a list never is. -/
theorem success_tags_contain_base (render : Renderer) (input : FileInput)
    (phrase : String) (cfg : AppConfig) :
    ((extractResponse render input phrase cfg).success = true →
      "ai-chat" ∈ (extractResponse render input phrase cfg).detected_languages) ∧
    ((extractFullPage render input cfg).success = true →
      "ai-chat" ∈ (extractFullPage render input cfg).detected_languages) := by
  constructor
  · cases input with
    | missing => intro h; simp [extractResponse] at h
    | undecodable => intro h; simp [extractResponse] at h
    | parsed soup =>
        cases hp : findPhrasePath soup phrase with
        | none => intro h; simp [extractResponse, hp] at h
        | some p =>
            cases hc : containerPath soup p with
            | none => intro h; simp [extractResponse, hp, hc] at h
            | some cp =>
                cases ha : findAiNode soup cp with
                | none => intro h; simp [extractResponse, hp, hc, ha] at h
                | some ai =>
                    intro _
                    simp only [extractResponse, hp, hc, ha]
                    exact aiChat_mem_autoDetectTags _
  · cases input with
    | missing => intro h; simp [extractFullPage] at h
    | undecodable => intro h; simp [extractFullPage] at h
    | parsed soup =>
        intro _
        simp only [extractFullPage]
        exact aiChat_mem_autoDetectTags _

/-- Witness for C10: concrete successful extractions in both modes whose
detected languages contain "ai-chat". -/
theorem success_tags_contain_base_witness :
    "ai-chat" ∈ (extractResponse (fun _ _ => "")
        (.parsed (.elem 0 "[document]" []
          [.elem 1 "div" [] [.text 2 "hello question"],
           .elem 3 "div" [] [.text 4 "this is a long enough answer text"]]))
        "hello" ⟨⟨true, "ATX", "%Y-%m-%d"⟩⟩).detected_languages ∧
    "ai-chat" ∈ (extractFullPage (fun _ _ => "")
        (.parsed (.elem 0 "[document]" [] [.text 1 "short page"]))
        ⟨⟨true, "ATX", "%Y-%m-%d"⟩⟩).detected_languages :=
  ⟨(success_tags_contain_base (fun _ _ => "")
      (.parsed (.elem 0 "[document]" []
        [.elem 1 "div" [] [.text 2 "hello question"],
         .elem 3 "div" [] [.text 4 "this is a long enough answer text"]]))
      "hello" ⟨⟨true, "ATX", "%Y-%m-%d"⟩⟩).1 (by decide),
   (success_tags_contain_base (fun _ _ => "")
      (.parsed (.elem 0 "[document]" [] [.text 1 "short page"]))
      "" ⟨⟨true, "ATX", "%Y-%m-%d"⟩⟩).2 (by decide)⟩
